import Mathlib

/-!
Shallow embedding of the graph-layout and timeline engines of the repository
(`src/renderer/src/utils/layout.ts` and `src/renderer/src/utils/timeline.ts`).

Modelling conventions:
* JavaScript numbers are modelled as `ℚ` (all arithmetic in the engines is
  exact on the inputs the claims are about).
* The child map built by `forEach` pushes is modelled by `childrenOf`, which
  preserves input order exactly as `Map.get` returns the pushed lists; the
  JS truthiness guard on `parent_id` (the empty string is falsy) is kept.
* The recursive tree walks of the source terminate only on acyclic inputs;
  they are embedded with an explicit fuel argument.  The entry points supply
  `nodes.length + 1` fuel, which is enough for every acyclic node set, the
  only inputs on which the source terminates at all.
* Fields of `StoryNode` that neither engine reads (`canvas_id`,
  `container_role`, `container_id`, `active_channels`, transition fields,
  `internal_state_map`) are omitted.  Fields the code guards with `?? d`
  (`media_in_point`, `playback_rate`, `drift`) are modelled as `Option`
  to mirror the guard.
* The source's `timelinePositions` map is written and never read; it is
  omitted from the timeline state.
-/

namespace LocalGraph

/-- `type` field of a node (`NodeType` in the source). -/
inductive NodeType where
  | SPINE
  | SATELLITE
  | CONTAINER
deriving DecidableEq, Repr

/-- `anchor_type` field of a node (`AnchorType` in the source). -/
inductive AnchorType where
  | ORIGIN
  | APPEND
  | PREPEND
  | TOP
deriving DecidableEq, Repr

/-- The `StoryNode` record (fields read by the two engines). -/
structure StoryNode where
  id : String
  type : NodeType
  parent_id : Option String
  anchor_type : Option AnchorType
  drift : Option ℚ
  ui_track_lane : Option ℤ
  media_in_point : Option ℚ
  media_out_point : Option ℚ
  playback_rate : Option ℚ
  asset_id : Option String
deriving DecidableEq, Repr

-- Layout constants (layout.ts lines 11-14).
def BASE_NODE_WIDTH : ℚ := 300
def NODE_HEIGHT : ℚ := 100
def GAP_BETWEEN_NODES : ℚ := 100
def CANVAS_PADDING : ℚ := 50

/-- A rendered node with computed layout coordinates (`RenderNode`). -/
structure RenderNode where
  node : StoryNode
  x : ℚ
  y : ℚ
  width : ℚ
  height : ℚ
  color : String
  borderColor : String
  isOrigin : Bool
  trackLabel : String
deriving DecidableEq, Repr

/-- Connection line kind (the string union in `ConnectionLine.type`). -/
inductive ConnType where
  | append
  | stack
  | prepend
deriving DecidableEq, Repr

/-- Connection line between parent and child nodes (`ConnectionLine`). -/
structure ConnectionLine where
  id : String
  fromX : ℚ
  fromY : ℚ
  toX : ℚ
  toY : ℚ
  type : ConnType
deriving DecidableEq, Repr

/-- Complete layout result (`GraphLayout`). -/
structure GraphLayout where
  nodes : List RenderNode
  connections : List ConnectionLine
  totalWidth : ℚ
  totalHeight : ℚ
deriving DecidableEq, Repr

/-- `NODE_COLORS[type]` (background, border); the `|| NODE_COLORS.SPINE`
fallback of the source is dead because the lookup is total. -/
def nodeColors : NodeType → String × String
  | NodeType.SPINE => ("#A855F7", "#7C3AED")
  | NodeType.SATELLITE => ("#06B6D4", "#0891B2")
  | NodeType.CONTAINER => ("#6B7280", "#4B5563")

/-- The `childrenMap` of both engines: nodes pushed under their `parent_id`
in input order.  A node with `parent_id = ""` is never inserted (JS
truthiness), hence the guard on the queried id. -/
def childrenOf (nodes : List StoryNode) (pid : String) : List StoryNode :=
  if pid = "" then []
  else nodes.filter (fun c => c.parent_id = some pid)

/-- `calculateBaseWidth` (layout.ts line 111): constant base width. -/
def calculateBaseWidth (_node : StoryNode) : ℚ :=
  BASE_NODE_WIDTH

/-- The body of `calculateElasticWidth` (layout.ts lines 122-143),
parameterised by the recursive call `f`. -/
def elasticGo (cm : String → List StoryNode) (f : StoryNode → ℚ) (node : StoryNode) : ℚ :=
  let baseWidth := calculateBaseWidth node
  let children := cm node.id
  let stackChildren := children.filter (fun c => c.anchor_type = some AnchorType.TOP)
  if stackChildren.isEmpty then baseWidth
  else
    let maxChildWidth := stackChildren.foldl (fun acc c => max acc (f c)) 0
    max baseWidth maxChildWidth

/-- `calculateElasticWidth` (layout.ts lines 122-143) with explicit fuel.
`cm` is the closed-over children map. -/
def calculateElasticWidthF (cm : String → List StoryNode) : Nat → StoryNode → ℚ
  | 0, _ => 0
  | fuel + 1, node => elasticGo cm (calculateElasticWidthF cm fuel) node

/-- `calculateElasticWidth` as called on a node set. -/
def calculateElasticWidth (nodes : List StoryNode) (node : StoryNode) : ℚ :=
  calculateElasticWidthF (childrenOf nodes) (nodes.length + 1) node

/-- An entry of the `positionMap` (`{x, y, width}`). -/
structure LPos where
  x : ℚ
  y : ℚ
  width : ℚ
deriving DecidableEq, Repr

/-- Mutable state threaded through `processNode`: the `renderNodes` and
`connections` arrays and the `positionMap` (most recent `set` first, so
`lookupPos` finds the latest binding exactly like `Map.get`). -/
structure LayoutState where
  renderNodes : List RenderNode
  connections : List ConnectionLine
  positionMap : List (String × LPos)
deriving DecidableEq, Repr

/-- `positionMap.get(id)`. -/
def lookupPos (m : List (String × LPos)) (i : String) : Option LPos :=
  (m.find? (fun p => p.1 = i)).map (fun p => p.2)

/-- The position rule of `processNode` (layout.ts lines 154-175): the
default `(startX, 0)` overridden per anchor when the parent is resolved. -/
def nodeXY (node : StoryNode) (startX : ℚ) (parentPos : Option LPos) : ℚ × ℚ :=
  match node.anchor_type, parentPos with
  | some AnchorType.ORIGIN, _ => (startX, 0)
  | some AnchorType.APPEND, some pp => (pp.x + pp.width + GAP_BETWEEN_NODES, pp.y)
  | some AnchorType.TOP, some pp => (pp.x, pp.y - NODE_HEIGHT - GAP_BETWEEN_NODES)
  | some AnchorType.PREPEND, some pp =>
      (pp.x - calculateBaseWidth node - GAP_BETWEEN_NODES, pp.y)
  | _, _ => (startX, 0)

/-- Rendered width (layout.ts lines 179-180): SPINE nodes get the elastic
width, every other type the base width. -/
def layoutWidth (cm : String → List StoryNode) (fuel : Nat) (node : StoryNode) : ℚ :=
  if node.type = NodeType.SPINE then calculateElasticWidthF cm fuel node
  else calculateBaseWidth node

/-- The resolved `{x, y, width}` stored for a node in the `positionMap`. -/
def selfPos (cm : String → List StoryNode) (fuel : Nat) (node : StoryNode)
    (startX : ℚ) (parentPos : Option LPos) : LPos :=
  ⟨(nodeXY node startX parentPos).1, (nodeXY node startX parentPos).2,
    layoutWidth cm fuel node⟩

/-- `Math.round` of JavaScript: `floor(x + 0.5)`. -/
def jsRound (x : ℚ) : ℤ :=
  ⌊x + 1 / 2⌋

/-- Track label from Y (layout.ts lines 189-190). -/
def trackLabelOf (y : ℚ) : String :=
  "V" ++ toString ((jsRound (y / (NODE_HEIGHT + GAP_BETWEEN_NODES))).natAbs + 1)

/-- The `RenderNode` literal pushed for a node (layout.ts lines 193-203). -/
def layoutRN (node : StoryNode) (pos : LPos) : RenderNode :=
  ⟨node, pos.x, pos.y, pos.width, NODE_HEIGHT,
    (nodeColors node.type).1, (nodeColors node.type).2,
    node.anchor_type = some AnchorType.ORIGIN, trackLabelOf pos.y⟩

/-- The connection pushed for an anchored child (layout.ts lines 206-234). -/
def connFor (node : StoryNode) (a : AnchorType) (pp pos : LPos) : ConnectionLine :=
  let ctype := if a = AnchorType.TOP then ConnType.stack
    else if a = AnchorType.PREPEND then ConnType.prepend
    else ConnType.append
  if ctype = ConnType.stack then
    ⟨"conn-" ++ node.id, pp.x + pp.width / 2, pp.y,
      pos.x + pos.width / 2, pos.y + NODE_HEIGHT, ctype⟩
  else
    ⟨"conn-" ++ node.id, pp.x + pp.width, pp.y + NODE_HEIGHT / 2,
      pos.x, pos.y + NODE_HEIGHT / 2, ctype⟩

/-- One iteration of the APPEND-children loop (layout.ts lines 248-257).
`f` is the recursive call at the smaller fuel; the accumulator is
`(state, rightmostX, nextX)`. -/
def appendStep (f : StoryNode → ℚ → Option LPos → LayoutState → LayoutState × ℚ)
    (pos : LPos) (acc : LayoutState × ℚ × ℚ) (child : StoryNode) : LayoutState × ℚ × ℚ :=
  let res := f child acc.2.2 (some pos) acc.1
  let nX := match lookupPos res.1.positionMap child.id with
    | some cp => cp.x + cp.width + GAP_BETWEEN_NODES
    | none => acc.2.2
  (res.1, max acc.2.1 res.2, nX)

/-- One iteration of the TOP-children loop (layout.ts lines 260-263);
the accumulator is `(state, rightmostX)`. -/
def stackStep (f : StoryNode → ℚ → Option LPos → LayoutState → LayoutState × ℚ)
    (x : ℚ) (pos : LPos) (acc : LayoutState × ℚ) (child : StoryNode) : LayoutState × ℚ :=
  let res := f child x (some pos) acc.1
  (res.1, max acc.2 res.2)

/-- One iteration of the PREPEND-children loop (layout.ts lines 266-269):
the returned rightmost X of the child is discarded. -/
def prependStep (f : StoryNode → ℚ → Option LPos → LayoutState → LayoutState × ℚ)
    (x : ℚ) (pos : LPos) (stA : LayoutState) (child : StoryNode) : LayoutState :=
  (f child (x - calculateBaseWidth child - GAP_BETWEEN_NODES) (some pos) stA).1

/-- Adds the connection line of an anchored child with a resolved parent to
the state (layout.ts lines 206-234). -/
def withConn (node : StoryNode) (parentPos : Option LPos) (pos : LPos)
    (st1 : LayoutState) : LayoutState :=
  match parentPos, node.anchor_type with
  | some pp, some a =>
    ⟨st1.renderNodes, st1.connections ++ [connFor node a pp pos], st1.positionMap⟩
  | _, _ => st1

/-- The body of `processNode` (layout.ts lines 149-272), parameterised by
the recursive call `f` (which runs at the next smaller fuel) and by the
fuel `wfuel` handed to the elastic-width recursion. -/
def processGo (cm : String → List StoryNode)
    (f : StoryNode → ℚ → Option LPos → LayoutState → LayoutState × ℚ)
    (wfuel : Nat) (node : StoryNode) (startX : ℚ) (parentPos : Option LPos)
    (st : LayoutState) : LayoutState × ℚ :=
  let pos := selfPos cm wfuel node startX parentPos
  let st2 := withConn node parentPos pos
    ⟨st.renderNodes ++ [layoutRN node pos], st.connections, (node.id, pos) :: st.positionMap⟩
  let children := cm node.id
  let appendChildren := children.filter (fun c => c.anchor_type = some AnchorType.APPEND)
  let stackChildren := children.filter (fun c => c.anchor_type = some AnchorType.TOP)
  let prependChildren := children.filter (fun c => c.anchor_type = some AnchorType.PREPEND)
  let afterAppend := appendChildren.foldl (appendStep f pos)
    (st2, pos.x + pos.width, pos.x + pos.width + GAP_BETWEEN_NODES)
  let afterStack := stackChildren.foldl (stackStep f pos.x pos)
    (afterAppend.1, afterAppend.2.1)
  let afterPrepend := prependChildren.foldl (prependStep f pos.x pos) afterStack.1
  (afterPrepend, afterStack.2)

/-- `processNode` (layout.ts lines 149-272) with explicit fuel and the
mutated arrays passed as state.  Returns the updated state and the
`rightmostX` of the call. -/
def processNodeF (cm : String → List StoryNode) :
    Nat → StoryNode → ℚ → Option LPos → LayoutState → LayoutState × ℚ
  | 0, _, _, _, st => (st, 0)
  | fuel + 1, node, startX, parentPos, st =>
    processGo cm (processNodeF cm fuel) (fuel + 1) node startX parentPos st

/-- `computeGraphLayout` (layout.ts lines 77-290). -/
def computeGraphLayout (nodes : List StoryNode) : GraphLayout :=
  if nodes.isEmpty then ⟨[], [], 0, 0⟩
  else
    match nodes.find? (fun n => n.anchor_type = some AnchorType.ORIGIN) with
    | none => ⟨[], [], 0, 0⟩
    | some originNode =>
      let res := processNodeF (childrenOf nodes) (nodes.length + 1) originNode
        CANVAS_PADDING none ⟨[], [], []⟩
      let minY := res.1.renderNodes.foldl (fun a rn => min a rn.y) 0
      ⟨res.1.renderNodes, res.1.connections, res.2 + CANVAS_PADDING,
        |minY| + NODE_HEIGHT + CANVAS_PADDING⟩

/-- Drop zone kinds (the non-null values of `DropZoneType`; the `null`
member of the source's union never occurs in a returned zone). -/
inductive DropZoneType where
  | append
  | stack
  | prepend
deriving DecidableEq, Repr

/-- Drop zone detection result (`DropZone`). -/
structure DropZone where
  targetNodeId : String
  type : DropZoneType
  ghostX : ℚ
  ghostY : ℚ
  ghostWidth : ℚ
deriving DecidableEq, Repr

/-- The margin-expanded bounding-box test of `detectDropZone`
(layout.ts lines 347-353, `hitPadding = 20`). -/
def hitTest (mouseX mouseY : ℚ) (rn : RenderNode) : Bool :=
  decide (rn.x - 20 ≤ mouseX) && decide (mouseX ≤ rn.x + rn.width + 20) &&
  decide (rn.y - 20 ≤ mouseY) && decide (mouseY ≤ rn.y + rn.height + 20)

/-- Zone selection inside a hit node (layout.ts lines 355-399):
right 30 percent, then top 50 percent, then left 20 percent, else append. -/
def zoneForNode (mouseX mouseY : ℚ) (rn : RenderNode) : DropZone :=
  let relativeX := mouseX - rn.x
  let relativeY := mouseY - rn.y
  if relativeX > rn.width * 0.7 then
    ⟨rn.node.id, DropZoneType.append, rn.x + rn.width + GAP_BETWEEN_NODES, rn.y, BASE_NODE_WIDTH⟩
  else if relativeY < rn.height * 0.5 then
    ⟨rn.node.id, DropZoneType.stack, rn.x, rn.y - NODE_HEIGHT - GAP_BETWEEN_NODES, BASE_NODE_WIDTH⟩
  else if relativeX < rn.width * 0.2 then
    ⟨rn.node.id, DropZoneType.prepend, rn.x - BASE_NODE_WIDTH - GAP_BETWEEN_NODES, rn.y, BASE_NODE_WIDTH⟩
  else
    ⟨rn.node.id, DropZoneType.append, rn.x + rn.width + GAP_BETWEEN_NODES, rn.y, BASE_NODE_WIDTH⟩

/-- `detectDropZone` (layout.ts lines 322-415).  The first-hit loop is the
`find?`; the final `reduce` is the fold picking the strictly larger right
edge.  The `[]` fallback of that fold is unreachable (the list was checked
non-empty); the source would throw there. -/
def detectDropZone (mouseX mouseY : ℚ) (layout : GraphLayout) : Option DropZone :=
  if layout.nodes.isEmpty then
    some ⟨"", DropZoneType.append, CANVAS_PADDING, 0, BASE_NODE_WIDTH⟩
  else
    match layout.nodes.find? (hitTest mouseX mouseY) with
    | some rn => some (zoneForNode mouseX mouseY rn)
    | none =>
      match layout.nodes with
      | [] => none
      | h :: t =>
        let rightmostNode := t.foldl (fun prev curr =>
          if prev.x + prev.width < curr.x + curr.width then curr else prev) h
        some ⟨rightmostNode.node.id, DropZoneType.append,
          rightmostNode.x + rightmostNode.width + GAP_BETWEEN_NODES,
          rightmostNode.y, BASE_NODE_WIDTH⟩

/-- A clip of the timeline view (`TimelineClip`). -/
structure TimelineClip where
  id : String
  nodeId : String
  mediaId : Option String
  start : ℚ
  «end» : ℚ
  track : ℤ
  color : String
  name : String
  duration : ℚ
deriving DecidableEq, Repr

/-- Row kind (`'video' | 'audio'`). -/
inductive RowType where
  | video
  | audio
deriving DecidableEq, Repr

/-- A track/row in the timeline (`TimelineRow`). -/
structure TimelineRow where
  id : ℤ
  label : String
  type : RowType
  clips : List TimelineClip
deriving DecidableEq, Repr

/-- Timeline derivation result (`TimelineState`). -/
structure TimelineState where
  rows : List TimelineRow
  totalDuration : ℚ
deriving DecidableEq, Repr

/-- `getNodeDuration` (timeline.ts lines 104-109):
`(outPoint - inPoint) / rate` with the `?? 0`, `?? inPoint`, `?? 1`
defaults.  No guard on `rate ≤ 0`. -/
def getNodeDuration (node : StoryNode) : ℚ :=
  let inPoint := node.media_in_point.getD 0
  let outPoint := node.media_out_point.getD inPoint
  let rate := node.playback_rate.getD 1
  (outPoint - inPoint) / rate

/-- The clip literal built for a node processed at `startTime`
(timeline.ts lines 127-137). -/
def tlClip (node : StoryNode) (startTime : ℚ) : TimelineClip :=
  let duration := getNodeDuration node
  let track := node.ui_track_lane.getD 0
  let isSpine := track = 0
  ⟨"clip-" ++ node.id, node.id, node.asset_id, startTime, startTime + duration, track,
    if isSpine then "#A855F7" else "#06B6D4",
    if isSpine then "SPINE" else "SATELLITE",
    duration⟩

/-- Mutable state of the timeline walk: the clips in emission order
(`clipsByTrack` flattened; per-track lists are recovered by filtering,
which preserves the per-track push order) and the running `totalDuration`. -/
structure TLState where
  clips : List TimelineClip
  totalDuration : ℚ
deriving DecidableEq, Repr

/-- One iteration of the TOP-children loop (timeline.ts lines 153-156):
the child starts at the parent's start plus its drift. -/
def tlTopStep (f : StoryNode → ℚ → TLState → TLState × ℚ)
    (startTime : ℚ) (s : TLState) (c : StoryNode) : TLState :=
  (f c (startTime + (c.drift.getD 0) / 1000) s).1

/-- One iteration of the APPEND-children loop (timeline.ts lines 161-165):
the accumulator is `(state, chainTime)`; the child starts at the chain time
plus its drift and advances the chain to its computed end. -/
def tlAppendStep (f : StoryNode → ℚ → TLState → TLState × ℚ)
    (acc : TLState × ℚ) (c : StoryNode) : TLState × ℚ :=
  f c (acc.2 + (c.drift.getD 0) / 1000) acc.1

/-- One iteration of the PREPEND-children loop (timeline.ts lines 170-172):
the child starts at the parent's own start. -/
def tlPrependStep (f : StoryNode → ℚ → TLState → TLState × ℚ)
    (startTime : ℚ) (s : TLState) (c : StoryNode) : TLState :=
  (f c startTime s).1

/-- The body of the timeline `processNode` (timeline.ts lines 115-175),
parameterised by the recursive call `f`. -/
def tlGo (cm : String → List StoryNode)
    (f : StoryNode → ℚ → TLState → TLState × ℚ)
    (node : StoryNode) (startTime : ℚ) (st : TLState) : TLState × ℚ :=
  let endTime := startTime + getNodeDuration node
  let st1 : TLState := ⟨st.clips ++ [tlClip node startTime], max st.totalDuration endTime⟩
  let children := cm node.id
  let topChildren := children.filter (fun c => c.anchor_type = some AnchorType.TOP)
  let st2 := topChildren.foldl (tlTopStep f startTime) st1
  let appendChildren := children.filter (fun c => c.anchor_type = some AnchorType.APPEND)
  let st3 := appendChildren.foldl (tlAppendStep f) (st2, endTime)
  let prependChildren := children.filter (fun c => c.anchor_type = some AnchorType.PREPEND)
  let st4 := prependChildren.foldl (tlPrependStep f startTime) st3.1
  (st4, endTime)

/-- `processNode` of the timeline engine (timeline.ts lines 115-175) with
explicit fuel.  Returns the updated state and the node's own `endTime`
(which the source computes before recursing, so it is also returned in the
out-of-fuel case). -/
def tlProcessNodeF (cm : String → List StoryNode) :
    Nat → StoryNode → ℚ → TLState → TLState × ℚ
  | 0, node, startTime, st => (st, startTime + getNodeDuration node)
  | fuel + 1, node, startTime, st => tlGo cm (tlProcessNodeF cm fuel) node startTime st

/-- `createEmptyRows` (timeline.ts lines 192-199). -/
def createEmptyRows : List TimelineRow :=
  [⟨2, "V3", RowType.video, []⟩,
   ⟨1, "V2", RowType.video, []⟩,
   ⟨0, "V1", RowType.video, []⟩,
   ⟨-1, "A1", RowType.audio, []⟩]

/-- `buildTimelineRows` (timeline.ts lines 204-235) on the flattened clip
list: video rows from `max(maxTrack, 2)` down to 0, then the empty `A1`. -/
def buildTimelineRows (clips : List TimelineClip) : List TimelineRow :=
  let maxTrack := max (clips.foldl (fun m c => max m c.track) 0) 2
  let videoRows := (List.range (maxTrack.toNat + 1)).reverse.map (fun (t : Nat) =>
    (⟨(t : ℤ), "V" ++ toString (t + 1), RowType.video,
      clips.filter (fun c => c.track = (t : ℤ))⟩ : TimelineRow))
  videoRows ++ [⟨-1, "A1", RowType.audio, []⟩]

/-- `deriveTimeline` (timeline.ts lines 63-187). -/
def deriveTimeline (nodes : List StoryNode) : TimelineState :=
  if nodes.isEmpty then ⟨createEmptyRows, 0⟩
  else
    match nodes.find? (fun n => n.anchor_type = some AnchorType.ORIGIN) with
    | none => ⟨createEmptyRows, 0⟩
    | some originNode =>
      let res := tlProcessNodeF (childrenOf nodes) (nodes.length + 1) originNode 0 ⟨[], 0⟩
      ⟨buildTimelineRows res.1.clips, res.1.totalDuration⟩

/-- All clips of a timeline state, row order then per-row order. -/
def clipsOf (ts : TimelineState) : List TimelineClip :=
  (ts.rows.map (fun r => r.clips)).flatten

/-- Resolved position of a processed child: its anchor rule only reads the
parent position (`startX` is ignored for APPEND/TOP/PREPEND anchors), so
`0` stands in for the ignored `startX`. -/
def childPosR (cm : String → List StoryNode) (cfuel : Nat) (c : StoryNode)
    (pos : LPos) : LPos :=
  selfPos cm cfuel c 0 (some pos)

/-- Body of `rightExtentAt`, parameterised by the recursive call `f`. -/
def rightGo (cm : String → List StoryNode) (f : StoryNode → LPos → ℚ)
    (cfuel : Nat) (node : StoryNode) (pos : LPos) : ℚ :=
  let children := cm node.id
  let appendChildren := children.filter (fun c => c.anchor_type = some AnchorType.APPEND)
  let stackChildren := children.filter (fun c => c.anchor_type = some AnchorType.TOP)
  let r1 := appendChildren.foldl (fun r c => max r (f c (childPosR cm cfuel c pos)))
    (pos.x + pos.width)
  stackChildren.foldl (fun r c => max r (f c (childPosR cm cfuel c pos))) r1

/-- The right-edge accumulation that `processNode` actually returns as
`rightmostX`: the node's own right edge joined with the accumulations of
its APPEND and TOP subtrees.  PREPEND subtrees are walked for rendering
but their extent is discarded (layout.ts line 268 ignores the returned
value), so they do not appear here. -/
def rightExtentAt (cm : String → List StoryNode) : Nat → StoryNode → LPos → ℚ
  | 0, _, _ => 0
  | fuel + 1, node, pos => rightGo cm (rightExtentAt cm fuel) fuel node pos

/-- The chained start times of a run of APPEND siblings whose parent ends
at `prevEnd`: the first child starts at `prevEnd` plus its own drift, each
later sibling at the previous sibling's computed end plus its own drift. -/
def chainStarts (prevEnd : ℚ) : List StoryNode → List ℚ
  | [] => []
  | c :: rest =>
    let s := prevEnd + (c.drift.getD 0) / 1000
    s :: chainStarts (s + getNodeDuration c) rest

/-! Concrete fixtures used by the closed instances below. -/

/-- Node literal helper: `drift = 0`, no asset. -/
def mkNode (i : String) (ty : NodeType) (pid : Option String) (a : Option AnchorType)
    (lane : Option ℤ) (inp outp rate : Option ℚ) : StoryNode :=
  ⟨i, ty, pid, a, some 0, lane, inp, outp, rate, none⟩

/-- An ORIGIN spine node with media `[0,10)` at rate 1, lane 0. -/
def nO : StoryNode :=
  mkNode "O" NodeType.SPINE none (some AnchorType.ORIGIN) (some 0) (some 0) (some 10) (some 1)

/-- A PREPEND satellite child of `nO`. -/
def nP : StoryNode :=
  mkNode "P" NodeType.SATELLITE (some "O") (some AnchorType.PREPEND) (some 0) (some 0) (some 1) (some 1)

/-- An APPEND child of `nP`. -/
def nPA : StoryNode :=
  mkNode "A" NodeType.SPINE (some "P") (some AnchorType.APPEND) (some 0) (some 0) (some 1) (some 1)

/-- An APPEND child of `nPA`. -/
def nPB : StoryNode :=
  mkNode "B" NodeType.SPINE (some "A") (some AnchorType.APPEND) (some 0) (some 0) (some 1) (some 1)

/-- ORIGIN with a PREPEND child whose APPEND chain extends past the
origin's own right edge. -/
def exC3nodes : List StoryNode := [nO, nP, nPA, nPB]

/-- Two APPEND children of `nO`. -/
def nA1 : StoryNode :=
  mkNode "A1" NodeType.SPINE (some "O") (some AnchorType.APPEND) (some 0) (some 0) (some 1) (some 1)

def nA2 : StoryNode :=
  mkNode "A2" NodeType.SPINE (some "O") (some AnchorType.APPEND) (some 0) (some 0) (some 1) (some 1)

/-- Sibling order as given. -/
def exC2a : List StoryNode := [nO, nA1, nA2]

/-- The same node set with the two APPEND siblings transposed. -/
def exC2b : List StoryNode := [nO, nA2, nA1]

/-- APPEND child of `nO` of duration 5. -/
def nC4A : StoryNode :=
  mkNode "A" NodeType.SPINE (some "O") (some AnchorType.APPEND) (some 0) (some 0) (some 5) (some 1)

/-- APPEND child of `nC4A` of duration 3. -/
def nC4B : StoryNode :=
  mkNode "B" NodeType.SPINE (some "A") (some AnchorType.APPEND) (some 0) (some 0) (some 3) (some 1)

/-- The chain ORIGIN (duration 10) → A (APPEND, 5) → B (APPEND, 3),
all drifts zero. -/
def exC4nodes : List StoryNode := [nO, nC4A, nC4B]

/-- `exC4nodes` with the first two nodes transposed: the relative order of
nodes sharing a parent is unchanged (each parent has one child here). -/
def exC2w : List StoryNode := [nC4A, nO, nC4B]

/-- A TOP child of `nO` whose stored lane is 5, drift 0, duration 2. -/
def nT : StoryNode :=
  mkNode "T" NodeType.SATELLITE (some "O") (some AnchorType.TOP) (some 5) (some 0) (some 2) (some 1)

def exC5nodes : List StoryNode := [nO, nT]

/-- An ORIGIN node with `playback_rate = -1` and media `[0,5)`. -/
def nBadRate : StoryNode :=
  mkNode "O" NodeType.SPINE none (some AnchorType.ORIGIN) (some 0) (some 0) (some 5) (some (-1))

/-- A node that is not an ORIGIN (an APPEND node with no parent). -/
def nLoneAppend : StoryNode :=
  mkNode "X" NodeType.SPINE none (some AnchorType.APPEND) (some 0) (some 0) (some 1) (some 1)

/-- A render node at `(0,0)` of size `300 × 100` (the C8 fixture). -/
def rnC8 : RenderNode :=
  ⟨nO, 0, 0, 300, 100, "#A855F7", "#7C3AED", true, "V1"⟩

/-- A second render node, left of and lower-edged than a farther one. -/
def rnFar : RenderNode :=
  ⟨nA1, 500, 0, 300, 100, "#A855F7", "#7C3AED", false, "V1"⟩

/-- A two-node layout whose rightmost node is `rnFar`. -/
def layC10 : GraphLayout := ⟨[rnC8, rnFar], [], 0, 0⟩

/-! ### General fold lemmas -/

theorem foldl_preserve {σ α : Type _} (P : σ → Prop) (f : σ → α → σ)
    (h : ∀ s a, P s → P (f s a)) :
    ∀ (l : List α) (s : σ), P s → P (l.foldl f s) := by
  intro l
  induction l with
  | nil => exact fun s hs => hs
  | cons a t ih => exact fun s hs => ih (f s a) (h s a hs)

theorem foldl_extends {σ α β : Type _} (proj : σ → List β) (f : σ → α → σ)
    (h : ∀ s a, ∃ ex, proj (f s a) = proj s ++ ex) :
    ∀ (l : List α) (s : σ), ∃ ex, proj (l.foldl f s) = proj s ++ ex := by
  intro l
  induction l with
  | nil => exact fun s => ⟨[], (List.append_nil _).symm⟩
  | cons a t ih =>
    intro s
    obtain ⟨e1, he1⟩ := h s a
    obtain ⟨e2, he2⟩ := ih (f s a)
    exact ⟨e1 ++ e2, by rw [List.foldl_cons, he2, he1, List.append_assoc]⟩

theorem foldl_max_le {α : Type _} (q : ℚ) (g : α → ℚ) :
    ∀ (l : List α) (s : ℚ), s ≤ q → (∀ c ∈ l, g c ≤ q) →
    l.foldl (fun acc c => max acc (g c)) s ≤ q := by
  intro l
  induction l with
  | nil => exact fun s hs _ => hs
  | cons a t ih =>
    intro s hs hg
    exact ih (max s (g a)) (max_le hs (hg a (List.mem_cons_self a t)))
      (fun c hc => hg c (List.mem_cons_of_mem a hc))

/-! ### The elastic width is constantly the base width

`calculateBaseWidth` is constant, so the recursive maximum can never
exceed `BASE_NODE_WIDTH` and the elastic width of every node is exactly
`BASE_NODE_WIDTH = 300`. -/

theorem elasticGo_eq_base (cm : String → List StoryNode) (f : StoryNode → ℚ)
    (hf : ∀ c, f c ≤ BASE_NODE_WIDTH) (node : StoryNode) :
    elasticGo cm f node = BASE_NODE_WIDTH := by
  simp only [elasticGo, calculateBaseWidth]
  split
  · rfl
  · exact max_eq_left (foldl_max_le _ _ _ 0
      (by norm_num [BASE_NODE_WIDTH]) (fun c _ => hf c))

theorem calculateElasticWidthF_le (cm : String → List StoryNode) :
    ∀ (fuel : Nat) (n : StoryNode), calculateElasticWidthF cm fuel n ≤ BASE_NODE_WIDTH := by
  intro fuel
  induction fuel with
  | zero =>
    intro n
    simp only [calculateElasticWidthF]
    norm_num [BASE_NODE_WIDTH]
  | succ fuel ih =>
    intro n
    rw [show calculateElasticWidthF cm (fuel + 1) n
        = elasticGo cm (calculateElasticWidthF cm fuel) n from rfl]
    rw [elasticGo_eq_base cm _ ih n]

theorem calculateElasticWidthF_const (cm : String → List StoryNode) (fuel : Nat)
    (n : StoryNode) : calculateElasticWidthF cm (fuel + 1) n = BASE_NODE_WIDTH :=
  elasticGo_eq_base cm _ (calculateElasticWidthF_le cm fuel) n

theorem layoutWidth_const (cm : String → List StoryNode) (fuel : Nat) (n : StoryNode) :
    layoutWidth cm (fuel + 1) n = BASE_NODE_WIDTH := by
  unfold layoutWidth
  split
  · exact calculateElasticWidthF_const cm fuel n
  · rfl

theorem calculateElasticWidth_const (nodes : List StoryNode) (n : StoryNode) :
    calculateElasticWidth nodes n = BASE_NODE_WIDTH :=
  calculateElasticWidthF_const (childrenOf nodes) nodes.length n

/-! ### The layout walk only appends to the emitted arrays -/

theorem append_extends_trans {β : Type _} {l1 l2 l3 : List β}
    (h12 : ∃ e, l2 = l1 ++ e) (h23 : ∃ e, l3 = l2 ++ e) : ∃ e, l3 = l1 ++ e := by
  obtain ⟨a, ha⟩ := h12
  obtain ⟨b, hb⟩ := h23
  exact ⟨a ++ b, by rw [hb, ha, List.append_assoc]⟩

theorem withConn_renderNodes (node : StoryNode) (pp : Option LPos) (pos : LPos)
    (st1 : LayoutState) : (withConn node pp pos st1).renderNodes = st1.renderNodes := by
  unfold withConn
  cases pp <;> cases node.anchor_type <;> rfl

theorem folds_renderNodes_extends (f : StoryNode → ℚ → Option LPos → LayoutState → LayoutState × ℚ)
    (hf : ∀ c sX pp s, ∃ ex, (f c sX pp s).1.renderNodes = s.renderNodes ++ ex)
    (pos : LPos) (lA lS lP : List StoryNode) (init : LayoutState × ℚ × ℚ) :
    ∃ ex, (lP.foldl (prependStep f pos.x pos)
        ((lS.foldl (stackStep f pos.x pos)
          ((lA.foldl (appendStep f pos) init).1,
           (lA.foldl (appendStep f pos) init).2.1)).1)).renderNodes
      = init.1.renderNodes ++ ex := by
  have hA := foldl_extends (fun a : LayoutState × ℚ × ℚ => a.1.renderNodes) (appendStep f pos)
    (fun s a => by simpa only [appendStep] using hf a s.2.2 (some pos) s.1) lA init
  have hS := foldl_extends (fun a : LayoutState × ℚ => a.1.renderNodes) (stackStep f pos.x pos)
    (fun s a => by simpa only [stackStep] using hf a pos.x (some pos) s.1) lS
    ((lA.foldl (appendStep f pos) init).1, (lA.foldl (appendStep f pos) init).2.1)
  have hP := foldl_extends (fun a : LayoutState => a.renderNodes) (prependStep f pos.x pos)
    (fun s a => by
      simpa only [prependStep] using
        hf a (pos.x - calculateBaseWidth a - GAP_BETWEEN_NODES) (some pos) s) lP
    ((lS.foldl (stackStep f pos.x pos)
      ((lA.foldl (appendStep f pos) init).1, (lA.foldl (appendStep f pos) init).2.1)).1)
  exact append_extends_trans (append_extends_trans hA hS) hP

theorem processGo_renderNodes (cm : String → List StoryNode)
    (f : StoryNode → ℚ → Option LPos → LayoutState → LayoutState × ℚ)
    (hf : ∀ c sX pp s, ∃ ex, (f c sX pp s).1.renderNodes = s.renderNodes ++ ex)
    (wfuel : Nat) (node : StoryNode) (startX : ℚ) (parentPos : Option LPos) (st : LayoutState) :
    ∃ ex, (processGo cm f wfuel node startX parentPos st).1.renderNodes
      = st.renderNodes ++ layoutRN node (selfPos cm wfuel node startX parentPos) :: ex := by
  obtain ⟨ex, hex⟩ := folds_renderNodes_extends f hf
    (selfPos cm wfuel node startX parentPos)
    ((cm node.id).filter (fun c => c.anchor_type = some AnchorType.APPEND))
    ((cm node.id).filter (fun c => c.anchor_type = some AnchorType.TOP))
    ((cm node.id).filter (fun c => c.anchor_type = some AnchorType.PREPEND))
    (withConn node parentPos (selfPos cm wfuel node startX parentPos)
      ⟨st.renderNodes ++ [layoutRN node (selfPos cm wfuel node startX parentPos)],
        st.connections,
        (node.id, selfPos cm wfuel node startX parentPos) :: st.positionMap⟩,
      (selfPos cm wfuel node startX parentPos).x + (selfPos cm wfuel node startX parentPos).width,
      (selfPos cm wfuel node startX parentPos).x + (selfPos cm wfuel node startX parentPos).width
        + GAP_BETWEEN_NODES)
  refine ⟨ex, ?_⟩
  rw [withConn_renderNodes] at hex
  simpa only [processGo, List.append_assoc, List.singleton_append] using hex

theorem processNodeF_renderNodes_extends (cm : String → List StoryNode) :
    ∀ (fuel : Nat) (c : StoryNode) (sX : ℚ) (pp : Option LPos) (s : LayoutState),
    ∃ ex, (processNodeF cm fuel c sX pp s).1.renderNodes = s.renderNodes ++ ex := by
  intro fuel
  induction fuel with
  | zero => exact fun c sX pp s => ⟨[], (List.append_nil _).symm⟩
  | succ fuel ih =>
    intro c sX pp s
    obtain ⟨ex, hex⟩ := processGo_renderNodes cm (processNodeF cm fuel) ih (fuel + 1) c sX pp s
    exact ⟨layoutRN c (selfPos cm (fuel + 1) c sX pp) :: ex, hex⟩

/-! ### Every emitted render node has width `BASE_NODE_WIDTH` -/

theorem folds_width (f : StoryNode → ℚ → Option LPos → LayoutState → LayoutState × ℚ)
    (hf : ∀ c sX pp s, (∀ rn ∈ s.renderNodes, rn.width = BASE_NODE_WIDTH) →
      ∀ rn ∈ (f c sX pp s).1.renderNodes, rn.width = BASE_NODE_WIDTH)
    (pos : LPos) (lA lS lP : List StoryNode) (init : LayoutState × ℚ × ℚ)
    (hinit : ∀ rn ∈ init.1.renderNodes, rn.width = BASE_NODE_WIDTH) :
    ∀ rn ∈ (lP.foldl (prependStep f pos.x pos)
        ((lS.foldl (stackStep f pos.x pos)
          ((lA.foldl (appendStep f pos) init).1,
           (lA.foldl (appendStep f pos) init).2.1)).1)).renderNodes,
      rn.width = BASE_NODE_WIDTH := by
  have hA := foldl_preserve
    (fun a : LayoutState × ℚ × ℚ => ∀ rn ∈ a.1.renderNodes, rn.width = BASE_NODE_WIDTH)
    (appendStep f pos)
    (fun s a hs => by simpa only [appendStep] using hf a s.2.2 (some pos) s.1 hs) lA init hinit
  have hS := foldl_preserve
    (fun a : LayoutState × ℚ => ∀ rn ∈ a.1.renderNodes, rn.width = BASE_NODE_WIDTH)
    (stackStep f pos.x pos)
    (fun s a hs => by simpa only [stackStep] using hf a pos.x (some pos) s.1 hs) lS
    ((lA.foldl (appendStep f pos) init).1, (lA.foldl (appendStep f pos) init).2.1) hA
  exact foldl_preserve
    (fun a : LayoutState => ∀ rn ∈ a.renderNodes, rn.width = BASE_NODE_WIDTH)
    (prependStep f pos.x pos)
    (fun s a hs => by
      simpa only [prependStep] using
        hf a (pos.x - calculateBaseWidth a - GAP_BETWEEN_NODES) (some pos) s hs) lP _ hS

theorem processGo_width (cm : String → List StoryNode)
    (f : StoryNode → ℚ → Option LPos → LayoutState → LayoutState × ℚ)
    (hf : ∀ c sX pp s, (∀ rn ∈ s.renderNodes, rn.width = BASE_NODE_WIDTH) →
      ∀ rn ∈ (f c sX pp s).1.renderNodes, rn.width = BASE_NODE_WIDTH)
    (fuel : Nat) (node : StoryNode) (startX : ℚ) (parentPos : Option LPos) (st : LayoutState)
    (hst : ∀ rn ∈ st.renderNodes, rn.width = BASE_NODE_WIDTH) :
    ∀ rn ∈ (processGo cm f (fuel + 1) node startX parentPos st).1.renderNodes,
      rn.width = BASE_NODE_WIDTH := by
  have hinit : ∀ rn ∈ (withConn node parentPos (selfPos cm (fuel + 1) node startX parentPos)
      ⟨st.renderNodes ++ [layoutRN node (selfPos cm (fuel + 1) node startX parentPos)],
        st.connections,
        (node.id, selfPos cm (fuel + 1) node startX parentPos) :: st.positionMap⟩).renderNodes,
      rn.width = BASE_NODE_WIDTH := by
    rw [withConn_renderNodes]
    intro rn hrn
    rcases List.mem_append.mp hrn with h | h
    · exact hst rn h
    · rw [List.mem_singleton.mp h]
      simpa only [layoutRN, selfPos] using layoutWidth_const cm fuel node
  have := folds_width f hf (selfPos cm (fuel + 1) node startX parentPos)
    ((cm node.id).filter (fun c => c.anchor_type = some AnchorType.APPEND))
    ((cm node.id).filter (fun c => c.anchor_type = some AnchorType.TOP))
    ((cm node.id).filter (fun c => c.anchor_type = some AnchorType.PREPEND))
    (withConn node parentPos (selfPos cm (fuel + 1) node startX parentPos)
      ⟨st.renderNodes ++ [layoutRN node (selfPos cm (fuel + 1) node startX parentPos)],
        st.connections,
        (node.id, selfPos cm (fuel + 1) node startX parentPos) :: st.positionMap⟩,
      (selfPos cm (fuel + 1) node startX parentPos).x
        + (selfPos cm (fuel + 1) node startX parentPos).width,
      (selfPos cm (fuel + 1) node startX parentPos).x
        + (selfPos cm (fuel + 1) node startX parentPos).width + GAP_BETWEEN_NODES)
    hinit
  simpa only [processGo] using this

theorem processNodeF_width (cm : String → List StoryNode) :
    ∀ (fuel : Nat) (node : StoryNode) (sX : ℚ) (pp : Option LPos) (st : LayoutState),
    (∀ rn ∈ st.renderNodes, rn.width = BASE_NODE_WIDTH) →
    ∀ rn ∈ (processNodeF cm fuel node sX pp st).1.renderNodes, rn.width = BASE_NODE_WIDTH := by
  intro fuel
  induction fuel with
  | zero => exact fun node sX pp st hst => hst
  | succ fuel ih => exact fun node sX pp st hst => processGo_width cm _ ih fuel node sX pp st hst

theorem computeGraphLayout_width (nodes : List StoryNode) :
    ∀ rn ∈ (computeGraphLayout nodes).nodes, rn.width = BASE_NODE_WIDTH := by
  intro rn hrn
  simp only [computeGraphLayout] at hrn
  split at hrn
  · simp at hrn
  · split at hrn
    · simp at hrn
    · exact processNodeF_width (childrenOf nodes) _ _ _ _ _ (by simp) rn hrn

/-! ### The returned `rightmostX` is the APPEND/TOP right extent

For every child actually walked by the loops (anchor APPEND, TOP or
PREPEND, with a resolved parent) the position rule ignores `startX`, so a
child's resolved position depends only on the parent position. -/

theorem selfPos_childPosR (cm : String → List StoryNode) (fuel : Nat) (c : StoryNode)
    (s : ℚ) (pp : LPos)
    (h : c.anchor_type = some AnchorType.APPEND ∨ c.anchor_type = some AnchorType.TOP
      ∨ c.anchor_type = some AnchorType.PREPEND) :
    selfPos cm fuel c s (some pp) = childPosR cm fuel c pp := by
  rcases h with h | h | h <;> simp [selfPos, childPosR, nodeXY, h]

theorem appendFold_right (cm : String → List StoryNode) (fuel : Nat)
    (ih : ∀ node sX pp st, (processNodeF cm fuel node sX pp st).2
      = rightExtentAt cm fuel node (selfPos cm fuel node sX pp))
    (pos : LPos) :
    ∀ (lA : List StoryNode), (∀ c ∈ lA, c.anchor_type = some AnchorType.APPEND) →
    ∀ (st2 : LayoutState) (rm nX : ℚ),
    (lA.foldl (appendStep (processNodeF cm fuel) pos) (st2, rm, nX)).2.1
      = lA.foldl (fun r c => max r (rightExtentAt cm fuel c (childPosR cm fuel c pos))) rm := by
  intro lA
  induction lA with
  | nil => intro _ st2 rm nX; rfl
  | cons c t iht =>
    intro hmem st2 rm nX
    have hc : c.anchor_type = some AnchorType.APPEND := hmem c (List.mem_cons_self c t)
    have hres : (processNodeF cm fuel c nX (some pos) st2).2
        = rightExtentAt cm fuel c (childPosR cm fuel c pos) := by
      rw [ih, selfPos_childPosR cm fuel c nX pos (Or.inl hc)]
    rw [List.foldl_cons, List.foldl_cons]
    simp only [appendStep, hres]
    exact iht (fun c' hc' => hmem c' (List.mem_cons_of_mem _ hc')) _ _ _

theorem stackFold_right (cm : String → List StoryNode) (fuel : Nat)
    (ih : ∀ node sX pp st, (processNodeF cm fuel node sX pp st).2
      = rightExtentAt cm fuel node (selfPos cm fuel node sX pp))
    (pos : LPos) :
    ∀ (lS : List StoryNode), (∀ c ∈ lS, c.anchor_type = some AnchorType.TOP) →
    ∀ (stA : LayoutState) (rm : ℚ),
    (lS.foldl (stackStep (processNodeF cm fuel) pos.x pos) (stA, rm)).2
      = lS.foldl (fun r c => max r (rightExtentAt cm fuel c (childPosR cm fuel c pos))) rm := by
  intro lS
  induction lS with
  | nil => intro _ stA rm; rfl
  | cons c t iht =>
    intro hmem stA rm
    have hc : c.anchor_type = some AnchorType.TOP := hmem c (List.mem_cons_self c t)
    have hres : (processNodeF cm fuel c pos.x (some pos) stA).2
        = rightExtentAt cm fuel c (childPosR cm fuel c pos) := by
      rw [ih, selfPos_childPosR cm fuel c pos.x pos (Or.inr (Or.inl hc))]
    rw [List.foldl_cons, List.foldl_cons]
    simp only [stackStep, hres]
    exact iht (fun c' hc' => hmem c' (List.mem_cons_of_mem _ hc')) _ _

theorem processNodeF_right (cm : String → List StoryNode) :
    ∀ (fuel : Nat) (node : StoryNode) (sX : ℚ) (pp : Option LPos) (st : LayoutState),
    (processNodeF cm fuel node sX pp st).2
      = rightExtentAt cm fuel node (selfPos cm fuel node sX pp) := by
  intro fuel
  induction fuel with
  | zero => intro node sX pp st; rfl
  | succ fuel ih =>
    intro node sX pp st
    have hmemA : ∀ c ∈ (cm node.id).filter
        (fun c => c.anchor_type = some AnchorType.APPEND),
        c.anchor_type = some AnchorType.APPEND :=
      fun c hc => by simpa using (List.mem_filter.mp hc).2
    have hmemS : ∀ c ∈ (cm node.id).filter
        (fun c => c.anchor_type = some AnchorType.TOP),
        c.anchor_type = some AnchorType.TOP :=
      fun c hc => by simpa using (List.mem_filter.mp hc).2
    show (processGo cm (processNodeF cm fuel) (fuel + 1) node sX pp st).2
      = rightGo cm (rightExtentAt cm fuel) fuel node (selfPos cm (fuel + 1) node sX pp)
    simp only [processGo, rightGo]
    rw [stackFold_right cm fuel ih _ _ hmemS, appendFold_right cm fuel ih _ _ hmemA]

/-! ### Timeline walk: return value, emission order, chained starts -/

theorem tlProcessNodeF_ret (cm : String → List StoryNode) (fuel : Nat)
    (c : StoryNode) (s : ℚ) (st : TLState) :
    (tlProcessNodeF cm fuel c s st).2 = s + getNodeDuration c := by
  cases fuel <;> rfl

theorem tlGo_clips_head (cm : String → List StoryNode)
    (f : StoryNode → ℚ → TLState → TLState × ℚ)
    (hf : ∀ c s t, ∃ ex, (f c s t).1.clips = t.clips ++ ex)
    (node : StoryNode) (startTime : ℚ) (st : TLState) :
    ∃ ex, (tlGo cm f node startTime st).1.clips
      = st.clips ++ tlClip node startTime :: ex := by
  have hT := foldl_extends (fun a : TLState => a.clips) (tlTopStep f startTime)
    (fun s a => by simpa only [tlTopStep] using hf a (startTime + (a.drift.getD 0) / 1000) s)
    ((cm node.id).filter (fun c => c.anchor_type = some AnchorType.TOP))
    ⟨st.clips ++ [tlClip node startTime],
      max st.totalDuration (startTime + getNodeDuration node)⟩
  have hA := foldl_extends (fun a : TLState × ℚ => a.1.clips) (tlAppendStep f)
    (fun s a => by simpa only [tlAppendStep] using hf a (s.2 + (a.drift.getD 0) / 1000) s.1)
    ((cm node.id).filter (fun c => c.anchor_type = some AnchorType.APPEND))
    (((cm node.id).filter (fun c => c.anchor_type = some AnchorType.TOP)).foldl
        (tlTopStep f startTime)
        ⟨st.clips ++ [tlClip node startTime],
          max st.totalDuration (startTime + getNodeDuration node)⟩,
      startTime + getNodeDuration node)
  have hP := foldl_extends (fun a : TLState => a.clips) (tlPrependStep f startTime)
    (fun s a => by simpa only [tlPrependStep] using hf a startTime s)
    ((cm node.id).filter (fun c => c.anchor_type = some AnchorType.PREPEND))
    (((cm node.id).filter (fun c => c.anchor_type = some AnchorType.APPEND)).foldl
      (tlAppendStep f)
      (((cm node.id).filter (fun c => c.anchor_type = some AnchorType.TOP)).foldl
          (tlTopStep f startTime)
          ⟨st.clips ++ [tlClip node startTime],
            max st.totalDuration (startTime + getNodeDuration node)⟩,
        startTime + getNodeDuration node)).1
  obtain ⟨ex, hex⟩ := append_extends_trans (append_extends_trans hT hA) hP
  refine ⟨ex, ?_⟩
  simpa only [tlGo, List.append_assoc, List.singleton_append] using hex

theorem tlProcessNodeF_clips_extends (cm : String → List StoryNode) :
    ∀ (fuel : Nat) (c : StoryNode) (s : ℚ) (t : TLState),
    ∃ ex, (tlProcessNodeF cm fuel c s t).1.clips = t.clips ++ ex := by
  intro fuel
  induction fuel with
  | zero => exact fun c s t => ⟨[], (List.append_nil _).symm⟩
  | succ fuel ih =>
    intro c s t
    obtain ⟨ex, hex⟩ := tlGo_clips_head cm (tlProcessNodeF cm fuel) ih c s t
    exact ⟨tlClip c s :: ex, hex⟩

theorem tlProcessNodeF_head (cm : String → List StoryNode) (fuel : Nat)
    (c : StoryNode) (s : ℚ) (t : TLState) :
    ∃ ex, (tlProcessNodeF cm (fuel + 1) c s t).1.clips = t.clips ++ tlClip c s :: ex :=
  tlGo_clips_head cm (tlProcessNodeF cm fuel) (tlProcessNodeF_clips_extends cm fuel) c s t

theorem mem_clips_of_extends {t1 t2 : List TimelineClip} {x : TimelineClip}
    (h : x ∈ t1) (hex : ∃ ex, t2 = t1 ++ ex) : x ∈ t2 := by
  obtain ⟨ex, hex⟩ := hex
  rw [hex]
  exact List.mem_append_left _ h

theorem tlAppendFold_chain (cm : String → List StoryNode) (fuel : Nat) :
    ∀ (l : List StoryNode) (st : TLState) (e : ℚ),
    ∀ pr ∈ l.zip (chainStarts e l),
    tlClip pr.1 pr.2
      ∈ (l.foldl (tlAppendStep (tlProcessNodeF cm (fuel + 1))) (st, e)).1.clips := by
  intro l
  induction l with
  | nil => intro st e pr hpr; simp [chainStarts] at hpr
  | cons c t iht =>
    intro st e pr hpr
    rw [List.foldl_cons]
    have hstep : tlAppendStep (tlProcessNodeF cm (fuel + 1)) (st, e) c
        = tlProcessNodeF cm (fuel + 1) c (e + (c.drift.getD 0) / 1000) st := rfl
    simp only [chainStarts, List.zip_cons_cons, List.mem_cons] at hpr
    rcases hpr with hpr | hpr
    · subst hpr
      obtain ⟨ex, hex⟩ := tlProcessNodeF_head cm fuel c (e + (c.drift.getD 0) / 1000) st
      have hmem : tlClip c (e + (c.drift.getD 0) / 1000)
          ∈ (tlAppendStep (tlProcessNodeF cm (fuel + 1)) (st, e) c).1.clips := by
        rw [hstep, hex]
        exact List.mem_append_right _ (List.mem_cons_self _ _)
      refine mem_clips_of_extends hmem ?_
      exact foldl_extends (fun a : TLState × ℚ => a.1.clips)
        (tlAppendStep (tlProcessNodeF cm (fuel + 1)))
        (fun s a => by
          simpa only [tlAppendStep] using
            tlProcessNodeF_clips_extends cm (fuel + 1) a (s.2 + (a.drift.getD 0) / 1000) s.1)
        t _
    · have hacc : tlAppendStep (tlProcessNodeF cm (fuel + 1)) (st, e) c
          = ((tlProcessNodeF cm (fuel + 1) c (e + (c.drift.getD 0) / 1000) st).1,
             e + (c.drift.getD 0) / 1000 + getNodeDuration c) := by
        rw [hstep]
        exact Prod.ext rfl (tlProcessNodeF_ret cm (fuel + 1) c _ st)
      rw [hacc]
      exact iht _ _ pr hpr

theorem tlTopFold_mem (cm : String → List StoryNode) (fuel : Nat) (s0 : ℚ) :
    ∀ (l : List StoryNode) (st : TLState) (c : StoryNode), c ∈ l →
    tlClip c (s0 + (c.drift.getD 0) / 1000)
      ∈ (l.foldl (tlTopStep (tlProcessNodeF cm (fuel + 1)) s0) st).clips := by
  intro l
  induction l with
  | nil => intro st c hc; simp at hc
  | cons a t iht =>
    intro st c hc
    rw [List.foldl_cons]
    rcases List.mem_cons.mp hc with h | h
    · subst h
      obtain ⟨ex, hex⟩ := tlProcessNodeF_head cm fuel c (s0 + (c.drift.getD 0) / 1000) st
      have hmem : tlClip c (s0 + (c.drift.getD 0) / 1000)
          ∈ (tlTopStep (tlProcessNodeF cm (fuel + 1)) s0 st c).clips := by
        show tlClip c (s0 + (c.drift.getD 0) / 1000)
          ∈ (tlProcessNodeF cm (fuel + 1) c (s0 + (c.drift.getD 0) / 1000) st).1.clips
        rw [hex]
        exact List.mem_append_right _ (List.mem_cons_self _ _)
      refine mem_clips_of_extends hmem ?_
      exact foldl_extends (fun a : TLState => a.clips)
        (tlTopStep (tlProcessNodeF cm (fuel + 1)) s0)
        (fun s a => by
          simpa only [tlTopStep] using
            tlProcessNodeF_clips_extends cm (fuel + 1) a (s0 + (a.drift.getD 0) / 1000) s)
        t _
    · exact iht _ c h

theorem tlProcessNodeF_top_clip (cm : String → List StoryNode) (fuel : Nat)
    (o c : StoryNode) (s0 : ℚ) (st : TLState)
    (hc : c ∈ (cm o.id).filter (fun x => x.anchor_type = some AnchorType.TOP)) :
    tlClip c (s0 + (c.drift.getD 0) / 1000)
      ∈ (tlProcessNodeF cm (fuel + 2) o s0 st).1.clips := by
  show tlClip c (s0 + (c.drift.getD 0) / 1000)
    ∈ (tlGo cm (tlProcessNodeF cm (fuel + 1)) o s0 st).1.clips
  simp only [tlGo]
  have h1 := tlTopFold_mem cm fuel s0
    ((cm o.id).filter (fun x => x.anchor_type = some AnchorType.TOP))
    ⟨st.clips ++ [tlClip o s0], max st.totalDuration (s0 + getNodeDuration o)⟩ c hc
  have hA := foldl_extends (fun a : TLState × ℚ => a.1.clips)
    (tlAppendStep (tlProcessNodeF cm (fuel + 1)))
    (fun s a => by
      simpa only [tlAppendStep] using
        tlProcessNodeF_clips_extends cm (fuel + 1) a (s.2 + (a.drift.getD 0) / 1000) s.1)
    ((cm o.id).filter (fun x => x.anchor_type = some AnchorType.APPEND))
    (((cm o.id).filter (fun x => x.anchor_type = some AnchorType.TOP)).foldl
        (tlTopStep (tlProcessNodeF cm (fuel + 1)) s0)
        ⟨st.clips ++ [tlClip o s0], max st.totalDuration (s0 + getNodeDuration o)⟩,
      s0 + getNodeDuration o)
  have hP := foldl_extends (fun a : TLState => a.clips)
    (tlPrependStep (tlProcessNodeF cm (fuel + 1)) s0)
    (fun s a => by
      simpa only [tlPrependStep] using
        tlProcessNodeF_clips_extends cm (fuel + 1) a s0 s)
    ((cm o.id).filter (fun x => x.anchor_type = some AnchorType.PREPEND))
    (((cm o.id).filter (fun x => x.anchor_type = some AnchorType.APPEND)).foldl
      (tlAppendStep (tlProcessNodeF cm (fuel + 1)))
      (((cm o.id).filter (fun x => x.anchor_type = some AnchorType.TOP)).foldl
          (tlTopStep (tlProcessNodeF cm (fuel + 1)) s0)
          ⟨st.clips ++ [tlClip o s0], max st.totalDuration (s0 + getNodeDuration o)⟩,
        s0 + getNodeDuration o)).1
  exact mem_clips_of_extends (mem_clips_of_extends h1 hA) hP

theorem tlProcessNodeF_append_chain (cm : String → List StoryNode) (fuel : Nat)
    (n : StoryNode) (s : ℚ) (st : TLState) :
    ∀ pr ∈ (((cm n.id).filter (fun c => c.anchor_type = some AnchorType.APPEND)).zip
      (chainStarts (s + getNodeDuration n)
        ((cm n.id).filter (fun c => c.anchor_type = some AnchorType.APPEND)))),
    tlClip pr.1 pr.2 ∈ (tlProcessNodeF cm (fuel + 2) n s st).1.clips := by
  intro pr hpr
  show tlClip pr.1 pr.2 ∈ (tlGo cm (tlProcessNodeF cm (fuel + 1)) n s st).1.clips
  simp only [tlGo]
  have h1 := tlAppendFold_chain cm fuel
    ((cm n.id).filter (fun c => c.anchor_type = some AnchorType.APPEND))
    (((cm n.id).filter (fun c => c.anchor_type = some AnchorType.TOP)).foldl
      (tlTopStep (tlProcessNodeF cm (fuel + 1)) s)
      ⟨st.clips ++ [tlClip n s], max st.totalDuration (s + getNodeDuration n)⟩)
    (s + getNodeDuration n) pr hpr
  refine mem_clips_of_extends h1 ?_
  exact foldl_extends (fun a : TLState => a.clips)
    (tlPrependStep (tlProcessNodeF cm (fuel + 1)) s)
    (fun s' a => by
      simpa only [tlPrependStep] using
        tlProcessNodeF_clips_extends cm (fuel + 1) a s s')
    _ _

/-! ### Row construction keeps every clip on a non-negative track -/

theorem foldl_max_start_le {α : Type _} (g : α → ℤ) :
    ∀ (l : List α) (s : ℤ), s ≤ l.foldl (fun m c => max m (g c)) s := by
  intro l
  induction l with
  | nil => exact fun s => le_refl s
  | cons a t iht =>
    intro s
    exact le_trans (le_max_left s (g a)) (iht (max s (g a)))

theorem foldl_max_mem_le {α : Type _} (g : α → ℤ) :
    ∀ (l : List α) (s : ℤ) (a : α), a ∈ l → g a ≤ l.foldl (fun m c => max m (g c)) s := by
  intro l
  induction l with
  | nil => intro s a ha; simp at ha
  | cons b t iht =>
    intro s a ha
    rcases List.mem_cons.mp ha with h | h
    · subst h
      exact le_trans (le_max_right s (g a)) (foldl_max_start_le g t (max s (g a)))
    · exact iht (max s (g b)) a h

theorem clip_mem_buildTimelineRows (clips : List TimelineClip) (clip : TimelineClip)
    (h : clip ∈ clips) (ht : 0 ≤ clip.track) :
    ∃ r ∈ buildTimelineRows clips, clip ∈ r.clips := by
  have hle : clip.track ≤ clips.foldl (fun m c => max m c.track) 0 :=
    foldl_max_mem_le (fun c => c.track) clips 0 clip h
  have h2 : clip.track ≤ max (clips.foldl (fun m c => max m c.track) 0) 2 :=
    le_trans hle (le_max_left _ _)
  have htn : clip.track.toNat
      < (max (clips.foldl (fun m (c : TimelineClip) => max m c.track) 0) 2).toNat + 1 := by
    omega
  have hidx : clip.track.toNat
      ∈ (List.range ((max (clips.foldl (fun m (c : TimelineClip) => max m c.track) 0) 2).toNat
        + 1)).reverse := by
    rw [List.mem_reverse, List.mem_range]
    exact htn
  have hrow := List.mem_map_of_mem
    (fun (t : ℕ) => (⟨(t : ℤ), "V" ++ toString (t + 1), RowType.video,
      clips.filter (fun c => c.track = (t : ℤ))⟩ : TimelineRow)) hidx
  refine ⟨⟨(clip.track.toNat : ℤ), "V" ++ toString (clip.track.toNat + 1), RowType.video,
    clips.filter (fun c => c.track = ((clip.track.toNat : ℤ)))⟩, ?_, ?_⟩
  · unfold buildTimelineRows
    exact List.mem_append_left _ hrow
  · refine List.mem_filter.mpr ⟨h, ?_⟩
    simp [Int.toNat_of_nonneg ht]

/-! ### Claim theorems -/

/-- C6: a node set with no ORIGIN node (the empty set included) yields the
empty layout `{[], [], 0, 0}` and the timeline rows V3, V2, V1, A1 in that
order, all empty, with `totalDuration = 0`. -/
theorem claim_C6_no_origin_empty (nodes : List StoryNode)
    (h : ∀ n ∈ nodes, n.anchor_type ≠ some AnchorType.ORIGIN) :
    computeGraphLayout nodes = ⟨[], [], 0, 0⟩ ∧
    deriveTimeline nodes
      = ⟨[⟨2, "V3", RowType.video, []⟩, ⟨1, "V2", RowType.video, []⟩,
          ⟨0, "V1", RowType.video, []⟩, ⟨-1, "A1", RowType.audio, []⟩], 0⟩ := by
  have hfind : nodes.find? (fun n => n.anchor_type = some AnchorType.ORIGIN) = none :=
    List.find?_eq_none.mpr (fun x hx => by simpa using h x hx)
  constructor
  · unfold computeGraphLayout
    rw [hfind]
    split <;> rfl
  · unfold deriveTimeline
    rw [hfind]
    split <;> rfl

theorem claim_C6_witness :
    computeGraphLayout [nLoneAppend] = ⟨[], [], 0, 0⟩ ∧
    deriveTimeline [nLoneAppend]
      = ⟨[⟨2, "V3", RowType.video, []⟩, ⟨1, "V2", RowType.video, []⟩,
          ⟨0, "V1", RowType.video, []⟩, ⟨-1, "A1", RowType.audio, []⟩], 0⟩ :=
  claim_C6_no_origin_empty [nLoneAppend] (by decide)

/-- C9: the timeline projection does not reject `playback_rate ≤ 0`.  At the
single ORIGIN node with `playback_rate = -1` and media `[0,5)`, the duration
is computed as `-5` and silently propagated: the projection returns a clip
with `duration = -5` and `end = -5` and `totalDuration = 0`, with no
validation error of any kind (the projection is total). -/
theorem claim_C9_rate_unguarded :
    getNodeDuration nBadRate = -5 ∧
    (deriveTimeline [nBadRate]).totalDuration = 0 ∧
    clipsOf (deriveTimeline [nBadRate])
      = [⟨"clip-O", "O", none, 0, -5, 0, "#A855F7", "SPINE", -5⟩] := by
  refine ⟨?_, ?_, ?_⟩ <;>
    norm_num [deriveTimeline, tlProcessNodeF, tlGo, tlTopStep, tlAppendStep, tlPrependStep,
      tlClip, getNodeDuration, childrenOf, buildTimelineRows, createEmptyRows, clipsOf,
      nBadRate, mkNode, List.filter, List.find?, List.foldl, List.range_succ] <;>
    decide

/-- C1: the elastic width of a node is the maximum of the base width
`BASE_NODE_WIDTH = 300` and the elastic widths of its TOP-anchored children
(children with other anchors do not contribute), and in the output of
`computeGraphLayout` a SPINE node is rendered with its elastic width while
a node of any other type is rendered with `BASE_NODE_WIDTH`.  (Since the
base width is constant, every elastic width equals `BASE_NODE_WIDTH`, so a
TOP child of elastic width strictly above the base width cannot occur.) -/
theorem claim_C1_elastic_width :
    (∀ (nodes : List StoryNode) (n : StoryNode),
      calculateElasticWidth nodes n
        = max BASE_NODE_WIDTH
            (((childrenOf nodes n.id).filter
                (fun c => c.anchor_type = some AnchorType.TOP)).foldl
              (fun acc c => max acc (calculateElasticWidth nodes c)) 0))
    ∧ (∀ (nodes : List StoryNode), ∀ rn ∈ (computeGraphLayout nodes).nodes,
        rn.width = (if rn.node.type = NodeType.SPINE
          then calculateElasticWidth nodes rn.node else BASE_NODE_WIDTH)) := by
  constructor
  · intro nodes n
    rw [calculateElasticWidth_const nodes n]
    rw [max_eq_left (foldl_max_le BASE_NODE_WIDTH _ _ 0
      (by norm_num [BASE_NODE_WIDTH])
      (fun c _ => le_of_eq (calculateElasticWidth_const nodes c)))]
  · intro nodes rn hrn
    rw [computeGraphLayout_width nodes rn hrn, calculateElasticWidth_const nodes rn.node,
      ite_self]

theorem claim_C1_witness :
    (⟨nO, 50, 0, 300, 100, "#A855F7", "#7C3AED", true, trackLabelOf 0⟩ : RenderNode).width
      = (if (⟨nO, 50, 0, 300, 100, "#A855F7", "#7C3AED", true, trackLabelOf 0⟩
            : RenderNode).node.type = NodeType.SPINE
          then calculateElasticWidth exC5nodes
            (⟨nO, 50, 0, 300, 100, "#A855F7", "#7C3AED", true, trackLabelOf 0⟩
              : RenderNode).node
          else BASE_NODE_WIDTH) := by
  have hnodes : (computeGraphLayout exC5nodes).nodes
      = [⟨nO, 50, 0, 300, 100, "#A855F7", "#7C3AED", true, trackLabelOf 0⟩,
         ⟨nT, 50, -200, 300, 100, "#06B6D4", "#0891B2", false, trackLabelOf (-200)⟩] := by
    norm_num [computeGraphLayout, processNodeF, processGo, withConn, appendStep, stackStep,
      prependStep, selfPos, layoutRN, connFor, layoutWidth, calculateElasticWidthF, elasticGo,
      calculateBaseWidth, childrenOf, lookupPos, nodeXY, nodeColors, BASE_NODE_WIDTH,
      NODE_HEIGHT, GAP_BETWEEN_NODES, CANVAS_PADDING, exC5nodes, nO, nT, mkNode,
      List.filter, List.find?, List.foldl]
    try decide
  exact claim_C1_elastic_width.2 exC5nodes _
    (by rw [hnodes]; exact List.mem_cons_self _ _)

/-- C7: a PREPEND-anchored node processed with a resolved parent position
`p` is rendered at `x = p.x − selfWidth − G` and `y = p.y`, where
`selfWidth` is the node's own rendered width. -/
theorem claim_C7_prepend_position (cm : String → List StoryNode) (fuel : Nat)
    (n : StoryNode) (startX : ℚ) (p : LPos) (st : LayoutState)
    (h : n.anchor_type = some AnchorType.PREPEND) :
    ∃ rn rest,
      (processNodeF cm (fuel + 1) n startX (some p) st).1.renderNodes
        = st.renderNodes ++ rn :: rest
      ∧ rn.node = n
      ∧ rn.x = p.x - rn.width - GAP_BETWEEN_NODES
      ∧ rn.y = p.y := by
  obtain ⟨ex, hex⟩ := processGo_renderNodes cm (processNodeF cm fuel)
    (processNodeF_renderNodes_extends cm fuel) (fuel + 1) n startX (some p) st
  refine ⟨layoutRN n (selfPos cm (fuel + 1) n startX (some p)), ex, hex, rfl, ?_, ?_⟩
  · show (selfPos cm (fuel + 1) n startX (some p)).x
      = p.x - (selfPos cm (fuel + 1) n startX (some p)).width - GAP_BETWEEN_NODES
    simp [selfPos, nodeXY, h, layoutWidth_const cm fuel n, calculateBaseWidth]
  · show (selfPos cm (fuel + 1) n startX (some p)).y = p.y
    simp [selfPos, nodeXY, h]

theorem claim_C7_witness :
    ∃ rn rest,
      (processNodeF (childrenOf []) 1 nP 0 (some ⟨50, 0, 300⟩) ⟨[], [], []⟩).1.renderNodes
        = rn :: rest
      ∧ rn.node = nP
      ∧ rn.x = 50 - rn.width - GAP_BETWEEN_NODES
      ∧ rn.y = 0 :=
  claim_C7_prepend_position (childrenOf []) 0 nP 0 ⟨50, 0, 300⟩ ⟨[], [], []⟩ rfl

/-- C8: inside a hit node, zone selection follows the priority append
(right 30 percent of the width), stack (top 50 percent of the height),
prepend (left 20 percent of the width), append (middle band), with the
stated ghost positions; and at a node at `(0,0)` of size `300 × 100` with
the cursor at `(270, 50)` the result is an append zone with
`ghostX = 300 + G = 400`. -/
theorem claim_C8_zone_priority :
    (∀ (mx my : ℚ) (layout : GraphLayout) (rn : RenderNode),
      layout.nodes.find? (hitTest mx my) = some rn →
      ((mx - rn.x > rn.width * 0.7 →
          detectDropZone mx my layout
            = some ⟨rn.node.id, DropZoneType.append,
                rn.x + rn.width + GAP_BETWEEN_NODES, rn.y, BASE_NODE_WIDTH⟩)
        ∧ (mx - rn.x ≤ rn.width * 0.7 → my - rn.y < rn.height * 0.5 →
          detectDropZone mx my layout
            = some ⟨rn.node.id, DropZoneType.stack,
                rn.x, rn.y - NODE_HEIGHT - GAP_BETWEEN_NODES, BASE_NODE_WIDTH⟩)
        ∧ (mx - rn.x ≤ rn.width * 0.7 → rn.height * 0.5 ≤ my - rn.y →
            mx - rn.x < rn.width * 0.2 →
          detectDropZone mx my layout
            = some ⟨rn.node.id, DropZoneType.prepend,
                rn.x - BASE_NODE_WIDTH - GAP_BETWEEN_NODES, rn.y, BASE_NODE_WIDTH⟩)
        ∧ (rn.width * 0.2 ≤ mx - rn.x → mx - rn.x ≤ rn.width * 0.7 →
            rn.height * 0.5 ≤ my - rn.y →
          detectDropZone mx my layout
            = some ⟨rn.node.id, DropZoneType.append,
                rn.x + rn.width + GAP_BETWEEN_NODES, rn.y, BASE_NODE_WIDTH⟩)))
    ∧ detectDropZone 270 50 ⟨[rnC8], [], 0, 0⟩
        = some ⟨"O", DropZoneType.append, 400, 0, 300⟩ := by
  constructor
  · intro mx my layout rn hfind
    have hmem : rn ∈ layout.nodes := List.mem_of_find?_eq_some hfind
    have hne : layout.nodes.isEmpty = false :=
      List.isEmpty_eq_false.mpr (List.ne_nil_of_mem hmem)
    have hdet : detectDropZone mx my layout = some (zoneForNode mx my rn) := by
      unfold detectDropZone
      rw [hne, hfind]
      rfl
    refine ⟨?_, ?_, ?_, ?_⟩
    · intro h1
      rw [hdet]
      unfold zoneForNode
      rw [if_pos h1]
    · intro h1 h2
      rw [hdet]
      unfold zoneForNode
      rw [if_neg (not_lt.mpr h1), if_pos h2]
    · intro h1 h2 h3
      rw [hdet]
      unfold zoneForNode
      rw [if_neg (not_lt.mpr h1), if_neg (not_lt.mpr h2), if_pos h3]
    · intro h0 h1 h2
      rw [hdet]
      unfold zoneForNode
      rw [if_neg (not_lt.mpr h1), if_neg (not_lt.mpr h2), if_neg (not_lt.mpr h0)]
  · norm_num [detectDropZone, List.find?, hitTest, zoneForNode, rnC8, nO, mkNode,
      BASE_NODE_WIDTH, GAP_BETWEEN_NODES, NODE_HEIGHT, CANVAS_PADDING]

theorem claim_C8_witness :
    detectDropZone 100 20 ⟨[rnC8], [], 0, 0⟩
      = some ⟨"O", DropZoneType.stack, 0, 0 - NODE_HEIGHT - GAP_BETWEEN_NODES,
          BASE_NODE_WIDTH⟩ := by
  have h := (claim_C8_zone_priority.1 100 20 ⟨[rnC8], [], 0, 0⟩ rnC8
    (by norm_num [List.find?, hitTest, rnC8, nO, mkNode])).2.1
  have h2 := h (by norm_num [rnC8]) (by norm_num [rnC8])
  simpa only [rnC8] using h2

theorem foldl_rightmost :
    ∀ (t : List RenderNode) (h : RenderNode),
      (t.foldl (fun prev curr =>
        if prev.x + prev.width < curr.x + curr.width then curr else prev) h) ∈ h :: t
      ∧ ∀ rn ∈ h :: t,
          rn.x + rn.width
            ≤ (t.foldl (fun prev curr =>
                if prev.x + prev.width < curr.x + curr.width then curr else prev) h).x
              + (t.foldl (fun prev curr =>
                if prev.x + prev.width < curr.x + curr.width then curr else prev) h).width := by
  intro t
  induction t with
  | nil =>
    intro h
    constructor
    · exact List.mem_cons_self h []
    · intro rn hrn
      rcases List.mem_cons.mp hrn with he | he
      · rw [he]
        exact le_refl _
      · simp at he
  | cons c t iht =>
    intro h
    rw [List.foldl_cons]
    set p := if h.x + h.width < c.x + c.width then c else h with hp
    obtain ⟨hm, hb⟩ := iht p
    have hmem : p ∈ h :: c :: t := by
      by_cases hcmp : h.x + h.width < c.x + c.width
      · rw [hp, if_pos hcmp]
        exact List.mem_cons_of_mem _ (List.mem_cons_self _ _)
      · rw [hp, if_neg hcmp]
        exact List.mem_cons_self _ _
    have hple : h.x + h.width ≤ p.x + p.width ∧ c.x + c.width ≤ p.x + p.width := by
      by_cases hcmp : h.x + h.width < c.x + c.width
      · rw [hp, if_pos hcmp]
        exact ⟨le_of_lt hcmp, le_refl _⟩
      · rw [hp, if_neg hcmp]
        exact ⟨le_refl _, not_lt.mp hcmp⟩
    constructor
    · rcases List.mem_cons.mp hm with he | ht'
      · rw [he]
        exact hmem
      · exact List.mem_cons_of_mem _ (List.mem_cons_of_mem _ ht')
    · intro rn hrn
      have hpbound := hb p (List.mem_cons_self p t)
      rcases List.mem_cons.mp hrn with he | hrn'
      · rw [he]
        exact le_trans hple.1 hpbound
      · rcases List.mem_cons.mp hrn' with he2 | hrn''
        · rw [he2]
          exact le_trans hple.2 hpbound
        · exact hb rn (List.mem_cons_of_mem _ hrn'')

/-- C10: `detectDropZone` is total despite its `DropZone | null` type: on a
layout with zero nodes it returns the genesis append zone at the canvas
padding with empty target id; when no node is hit on a non-empty layout it
returns an append zone on a node maximising `x + width`; and every hit
falls through to a defined zone, so the result is never `none`. -/
theorem claim_C10_total :
    ∀ (mx my : ℚ) (layout : GraphLayout),
    (detectDropZone mx my layout).isSome = true
    ∧ (layout.nodes = [] →
        detectDropZone mx my layout
          = some ⟨"", DropZoneType.append, CANVAS_PADDING, 0, BASE_NODE_WIDTH⟩)
    ∧ (layout.nodes.find? (hitTest mx my) = none → layout.nodes ≠ [] →
        ∃ rm ∈ layout.nodes,
          detectDropZone mx my layout
            = some ⟨rm.node.id, DropZoneType.append,
                rm.x + rm.width + GAP_BETWEEN_NODES, rm.y, BASE_NODE_WIDTH⟩
          ∧ ∀ rn ∈ layout.nodes, rn.x + rn.width ≤ rm.x + rm.width) := by
  intro mx my layout
  by_cases hnil : layout.nodes = []
  · have hdet : detectDropZone mx my layout
        = some ⟨"", DropZoneType.append, CANVAS_PADDING, 0, BASE_NODE_WIDTH⟩ := by
      unfold detectDropZone
      rw [hnil]
      rfl
    exact ⟨by rw [hdet]; rfl, fun _ => hdet, fun _ hne => absurd hnil hne⟩
  · have hne' : layout.nodes.isEmpty = false := List.isEmpty_eq_false.mpr hnil
    obtain ⟨hd, tl, hht⟩ := List.exists_cons_of_ne_nil hnil
    cases hf : layout.nodes.find? (hitTest mx my) with
    | some rn =>
      have hdet : detectDropZone mx my layout = some (zoneForNode mx my rn) := by
        unfold detectDropZone
        rw [hne', hf]
        rfl
      exact ⟨by rw [hdet]; rfl, fun he => absurd he hnil,
        fun hf2 _ => absurd hf2 (by simp)⟩
    | none =>
      obtain ⟨hm, hb⟩ := foldl_rightmost tl hd
      rw [← hht] at hm hb
      have hdet : detectDropZone mx my layout
          = some ⟨(tl.foldl (fun prev curr =>
                if prev.x + prev.width < curr.x + curr.width then curr else prev) hd).node.id,
              DropZoneType.append,
              (tl.foldl (fun prev curr =>
                if prev.x + prev.width < curr.x + curr.width then curr else prev) hd).x
                + (tl.foldl (fun prev curr =>
                    if prev.x + prev.width < curr.x + curr.width then curr else prev) hd).width
                + GAP_BETWEEN_NODES,
              (tl.foldl (fun prev curr =>
                if prev.x + prev.width < curr.x + curr.width then curr else prev) hd).y,
              BASE_NODE_WIDTH⟩ := by
        unfold detectDropZone
        rw [hne', hf, hht]
        rfl
      exact ⟨by rw [hdet]; rfl, fun he => absurd he hnil,
        fun _ _ => ⟨_, hm, hdet, hb⟩⟩

theorem claim_C10_witness :
    (detectDropZone 10000 10000 layC10).isSome = true
    ∧ ∃ rm ∈ layC10.nodes,
        detectDropZone 10000 10000 layC10
          = some ⟨rm.node.id, DropZoneType.append,
              rm.x + rm.width + GAP_BETWEEN_NODES, rm.y, BASE_NODE_WIDTH⟩
        ∧ ∀ rn ∈ layC10.nodes, rn.x + rn.width ≤ rm.x + rm.width := by
  refine ⟨(claim_C10_total 10000 10000 layC10).1,
    (claim_C10_total 10000 10000 layC10).2.2 ?_ ?_⟩
  · norm_num [List.find?, hitTest, layC10, rnC8, rnFar, nO, nA1, mkNode]
  · simp [layC10]

/-- C2 (counterexample): transposing the two APPEND siblings of the ORIGIN
is a permutation of the node set, yet `computeGraphLayout` returns a
different output (the render-node array lists the siblings in input
order). -/
theorem claim_C2_counterexample :
    exC2a.Perm exC2b ∧ computeGraphLayout exC2a ≠ computeGraphLayout exC2b := by
  constructor
  · exact List.Perm.cons nO (List.Perm.swap nA2 nA1 [])
  · intro he
    have ha : (computeGraphLayout exC2a).nodes.map (fun rn => rn.node.id)
        = ["O", "A1", "A2"] := by
      norm_num [computeGraphLayout, processNodeF, processGo, withConn, appendStep, stackStep,
        prependStep, selfPos, layoutRN, connFor, layoutWidth, calculateElasticWidthF, elasticGo,
        calculateBaseWidth, childrenOf, lookupPos, nodeXY, nodeColors, BASE_NODE_WIDTH,
        NODE_HEIGHT, GAP_BETWEEN_NODES, CANVAS_PADDING, exC2a, nO, nA1, nA2, mkNode,
        List.filter, List.find?, List.foldl]
    have hb : (computeGraphLayout exC2b).nodes.map (fun rn => rn.node.id)
        = ["O", "A2", "A1"] := by
      norm_num [computeGraphLayout, processNodeF, processGo, withConn, appendStep, stackStep,
        prependStep, selfPos, layoutRN, connFor, layoutWidth, calculateElasticWidthF, elasticGo,
        calculateBaseWidth, childrenOf, lookupPos, nodeXY, nodeColors, BASE_NODE_WIDTH,
        NODE_HEIGHT, GAP_BETWEEN_NODES, CANVAS_PADDING, exC2b, nO, nA1, nA2, mkNode,
        List.filter, List.find?, List.foldl]
    rw [he, hb] at ha
    simp at ha

/-- C2 (amended): the layout is a function of the chosen origin (the first
ORIGIN in input order) and of the per-parent ordered children lists, so any
permutation that preserves both — the first ORIGIN node and the relative
order of nodes sharing the same `parent_id` — yields an identical output. -/
theorem claim_C2_amended (l1 l2 : List StoryNode) (hp : l1.Perm l2)
    (hfind : l1.find? (fun n => n.anchor_type = some AnchorType.ORIGIN)
      = l2.find? (fun n => n.anchor_type = some AnchorType.ORIGIN))
    (hch : ∀ pid, childrenOf l1 pid = childrenOf l2 pid) :
    computeGraphLayout l1 = computeGraphLayout l2 := by
  have hcm : childrenOf l1 = childrenOf l2 := funext hch
  have hlen : l1.length = l2.length := hp.length_eq
  by_cases hnil : l1 = []
  · subst hnil
    rw [hp.nil_eq]
  · have hnil2 : l2 ≠ [] := by
      intro h2
      rw [h2] at hp
      exact hnil hp.eq_nil
    unfold computeGraphLayout
    rw [hcm, hfind, hlen, List.isEmpty_eq_false.mpr hnil, List.isEmpty_eq_false.mpr hnil2]

theorem claim_C2_witness : computeGraphLayout exC4nodes = computeGraphLayout exC2w := by
  refine claim_C2_amended exC4nodes exC2w (List.Perm.swap nC4A nO [nC4B]) (by decide) ?_
  intro pid
  unfold childrenOf
  split
  · rfl
  · simp [exC4nodes, exC2w, nO, nC4A, nC4B, mkNode, List.filter_cons]

/-- C3 (counterexample): in the four-node set where the ORIGIN's PREPEND
child carries an APPEND chain reaching x-extent 750, `computeGraphLayout`
returns `totalWidth = 400`, while the claimed formula — the rightmost
`x + width` over all rendered nodes plus the canvas padding — gives 800:
PREPEND subtrees are excluded from the accumulated rightmost extent. -/
theorem claim_C3_counterexample :
    (computeGraphLayout exC3nodes).totalWidth = 400
    ∧ ((computeGraphLayout exC3nodes).nodes.foldl (fun a rn => max a (rn.x + rn.width)) 0)
        + CANVAS_PADDING = 800
    ∧ (computeGraphLayout exC3nodes).totalWidth
        ≠ ((computeGraphLayout exC3nodes).nodes.foldl
            (fun a rn => max a (rn.x + rn.width)) 0) + CANVAS_PADDING := by
  have h1 : (computeGraphLayout exC3nodes).totalWidth = 400 := by
    norm_num [computeGraphLayout, processNodeF, processGo, withConn, appendStep, stackStep,
      prependStep, selfPos, layoutRN, connFor, layoutWidth, calculateElasticWidthF, elasticGo,
      calculateBaseWidth, childrenOf, lookupPos, nodeXY, nodeColors, BASE_NODE_WIDTH,
      NODE_HEIGHT, GAP_BETWEEN_NODES, CANVAS_PADDING, exC3nodes, nO, nP, nPA, nPB, mkNode,
      List.filter, List.find?, List.foldl]
  have h2 : ((computeGraphLayout exC3nodes).nodes.foldl
      (fun a rn => max a (rn.x + rn.width)) 0) + CANVAS_PADDING = 800 := by
    norm_num [computeGraphLayout, processNodeF, processGo, withConn, appendStep, stackStep,
      prependStep, selfPos, layoutRN, connFor, layoutWidth, calculateElasticWidthF, elasticGo,
      calculateBaseWidth, childrenOf, lookupPos, nodeXY, nodeColors, BASE_NODE_WIDTH,
      NODE_HEIGHT, GAP_BETWEEN_NODES, CANVAS_PADDING, exC3nodes, nO, nP, nPA, nPB, mkNode,
      List.filter, List.find?, List.foldl]
  refine ⟨h1, h2, ?_⟩
  rw [h1, h2]
  norm_num

/-- C3 (amended): `totalWidth` is the canvas padding plus the right extent
accumulated over the origin's subtree where only APPEND and TOP subtrees
contribute (`rightExtentAt`; PREPEND subtrees are rendered but their extent
is discarded), and `totalHeight` is `|minY| + H + P` over all rendered
nodes, PREPEND subtrees included. -/
theorem claim_C3_amended (nodes : List StoryNode) (o : StoryNode)
    (hfind : nodes.find? (fun n => n.anchor_type = some AnchorType.ORIGIN) = some o) :
    (computeGraphLayout nodes).totalWidth
      = rightExtentAt (childrenOf nodes) (nodes.length + 1) o
          (selfPos (childrenOf nodes) (nodes.length + 1) o CANVAS_PADDING none)
        + CANVAS_PADDING
    ∧ (computeGraphLayout nodes).totalHeight
      = |(computeGraphLayout nodes).nodes.foldl (fun a rn => min a rn.y) 0|
        + NODE_HEIGHT + CANVAS_PADDING := by
  have hne : nodes ≠ [] := by
    intro h
    rw [h] at hfind
    simp at hfind
  have hemp : nodes.isEmpty = false := List.isEmpty_eq_false.mpr hne
  have hcg : computeGraphLayout nodes
      = ⟨(processNodeF (childrenOf nodes) (nodes.length + 1) o CANVAS_PADDING none
            ⟨[], [], []⟩).1.renderNodes,
         (processNodeF (childrenOf nodes) (nodes.length + 1) o CANVAS_PADDING none
            ⟨[], [], []⟩).1.connections,
         (processNodeF (childrenOf nodes) (nodes.length + 1) o CANVAS_PADDING none
            ⟨[], [], []⟩).2 + CANVAS_PADDING,
         |(processNodeF (childrenOf nodes) (nodes.length + 1) o CANVAS_PADDING none
            ⟨[], [], []⟩).1.renderNodes.foldl (fun a rn => min a rn.y) 0|
           + NODE_HEIGHT + CANVAS_PADDING⟩ := by
    unfold computeGraphLayout
    rw [hemp, hfind]
    rfl
  constructor
  · rw [hcg]
    show (processNodeF (childrenOf nodes) (nodes.length + 1) o CANVAS_PADDING none
        ⟨[], [], []⟩).2 + CANVAS_PADDING = _
    rw [processNodeF_right]
  · rw [hcg]

theorem claim_C3_witness :
    (computeGraphLayout exC3nodes).totalWidth
      = rightExtentAt (childrenOf exC3nodes) (exC3nodes.length + 1) nO
          (selfPos (childrenOf exC3nodes) (exC3nodes.length + 1) nO CANVAS_PADDING none)
        + CANVAS_PADDING
    ∧ (computeGraphLayout exC3nodes).totalHeight
      = |(computeGraphLayout exC3nodes).nodes.foldl (fun a rn => min a rn.y) 0|
        + NODE_HEIGHT + CANVAS_PADDING :=
  claim_C3_amended exC3nodes nO (by decide)

/-- C4 (counterexample): in the chain ORIGIN (duration 10) → A (APPEND, 5)
→ B (APPEND, 3) with zero drift, A's clip starts at the ORIGIN's end time
10 — not at 0 — and `totalDuration = 18`, refuting the claimed clips
`[0,5)`, `[5,8)` and `totalDuration = 8`: the ORIGIN's duration is not
irrelevant. -/
theorem claim_C4_counterexample :
    (deriveTimeline exC4nodes).totalDuration = 18
    ∧ (deriveTimeline exC4nodes).totalDuration ≠ 8
    ∧ ∃ clip ∈ clipsOf (deriveTimeline exC4nodes),
        clip.nodeId = "A" ∧ clip.start = 10 ∧ clip.«end» = 15 := by
  have h1 : (deriveTimeline exC4nodes).totalDuration = 18 := by
    norm_num [deriveTimeline, tlProcessNodeF, tlGo, tlTopStep, tlAppendStep, tlPrependStep,
      tlClip, getNodeDuration, childrenOf, exC4nodes, nO, nC4A, nC4B, mkNode,
      List.filter, List.find?, List.foldl]
  have h2 : clipsOf (deriveTimeline exC4nodes)
      = [⟨"clip-O", "O", none, 0, 10, 0, "#A855F7", "SPINE", 10⟩,
         ⟨"clip-A", "A", none, 10, 15, 0, "#A855F7", "SPINE", 5⟩,
         ⟨"clip-B", "B", none, 15, 18, 0, "#A855F7", "SPINE", 3⟩] := by
    norm_num [deriveTimeline, tlProcessNodeF, tlGo, tlTopStep, tlAppendStep, tlPrependStep,
      tlClip, getNodeDuration, childrenOf, buildTimelineRows, createEmptyRows, clipsOf,
      exC4nodes, nO, nC4A, nC4B, mkNode, List.filter, List.find?, List.foldl, List.range_succ]
    try decide
  refine ⟨h1, by rw [h1]; norm_num, ?_⟩
  rw [h2]
  exact ⟨⟨"clip-A", "A", none, 10, 15, 0, "#A855F7", "SPINE", 5⟩,
    List.mem_cons_of_mem _ (List.mem_cons_self _ _), rfl, rfl, rfl⟩

/-- C4 (amended): when the timeline walk processes a parent `n` at start
`s` (so `n`'s clip ends at `s + duration n`), the clips emitted for its
APPEND children start at the chained times of `chainStarts`: the first
child at the parent's end plus its own drift/1000, each later sibling at
the previous sibling's computed end plus its own drift/1000.  For the chain
ORIGIN (duration 10) → A (APPEND, 5) → B (APPEND, 3) with zero drift, the
clips are `[0,10)`, `[10,15)`, `[15,18)` on the ORIGIN's lane and
`totalDuration = 18`. -/
theorem claim_C4_chained_appends :
    (∀ (cm : String → List StoryNode) (fuel : Nat) (n : StoryNode) (s : ℚ) (st : TLState),
      ∀ pr ∈ (((cm n.id).filter (fun c => c.anchor_type = some AnchorType.APPEND)).zip
        (chainStarts (s + getNodeDuration n)
          ((cm n.id).filter (fun c => c.anchor_type = some AnchorType.APPEND)))),
      tlClip pr.1 pr.2 ∈ (tlProcessNodeF cm (fuel + 2) n s st).1.clips)
    ∧ (deriveTimeline exC4nodes).totalDuration = 18
    ∧ clipsOf (deriveTimeline exC4nodes)
      = [⟨"clip-O", "O", none, 0, 10, 0, "#A855F7", "SPINE", 10⟩,
         ⟨"clip-A", "A", none, 10, 15, 0, "#A855F7", "SPINE", 5⟩,
         ⟨"clip-B", "B", none, 15, 18, 0, "#A855F7", "SPINE", 3⟩] := by
  refine ⟨fun cm fuel n s st => tlProcessNodeF_append_chain cm fuel n s st, ?_, ?_⟩
  · norm_num [deriveTimeline, tlProcessNodeF, tlGo, tlTopStep, tlAppendStep, tlPrependStep,
      tlClip, getNodeDuration, childrenOf, exC4nodes, nO, nC4A, nC4B, mkNode,
      List.filter, List.find?, List.foldl]
  · norm_num [deriveTimeline, tlProcessNodeF, tlGo, tlTopStep, tlAppendStep, tlPrependStep,
      tlClip, getNodeDuration, childrenOf, buildTimelineRows, createEmptyRows, clipsOf,
      exC4nodes, nO, nC4A, nC4B, mkNode, List.filter, List.find?, List.foldl, List.range_succ]
    try decide

theorem claim_C4_witness :
    tlClip nC4A 10 ∈ (tlProcessNodeF (childrenOf exC4nodes) 2 nO 0 ⟨[], 0⟩).1.clips := by
  have hmem : ((nC4A, 10) : StoryNode × ℚ)
      ∈ (((childrenOf exC4nodes nO.id).filter
          (fun c => c.anchor_type = some AnchorType.APPEND)).zip
        (chainStarts (0 + getNodeDuration nO)
          ((childrenOf exC4nodes nO.id).filter
            (fun c => c.anchor_type = some AnchorType.APPEND)))) := by
    norm_num [childrenOf, chainStarts, getNodeDuration, exC4nodes, nO, nC4A, nC4B, mkNode,
      List.filter]
  exact claim_C4_chained_appends.1 (childrenOf exC4nodes) 0 nO 0 ⟨[], 0⟩ (nC4A, 10) hmem

/-- C5 (counterexample): a TOP child of the ORIGIN with stored lane 5 and
drift 0 yields a clip at start 0 on track 5, not on
`parent.lane + 1 = 1`: the projection uses the stored `ui_track_lane`
directly. -/
theorem claim_C5_counterexample :
    (∃ clip ∈ clipsOf (deriveTimeline exC5nodes),
      clip.nodeId = "T" ∧ clip.start = 0 ∧ clip.track = 5)
    ∧ ¬(∃ clip ∈ clipsOf (deriveTimeline exC5nodes),
      clip.nodeId = "T" ∧ clip.track = (nO.ui_track_lane.getD 0) + 1) := by
  have hc : clipsOf (deriveTimeline exC5nodes)
      = [⟨"clip-T", "T", none, 0, 2, 5, "#06B6D4", "SATELLITE", 2⟩,
         ⟨"clip-O", "O", none, 0, 10, 0, "#A855F7", "SPINE", 10⟩] := by
    norm_num [deriveTimeline, tlProcessNodeF, tlGo, tlTopStep, tlAppendStep, tlPrependStep,
      tlClip, getNodeDuration, childrenOf, buildTimelineRows, createEmptyRows, clipsOf,
      exC5nodes, nO, nT, mkNode, List.filter, List.find?, List.foldl, List.range_succ]
    try decide
  rw [hc]
  constructor
  · exact ⟨⟨"clip-T", "T", none, 0, 2, 5, "#06B6D4", "SATELLITE", 2⟩,
      List.mem_cons_self _ _, rfl, rfl, rfl⟩
  · decide

/-- C5 (amended): a TOP-anchored child `c` of the ORIGIN with drift 0
produces a clip starting at time 0 regardless of the ORIGIN's own duration,
placed on the child's own stored lane `ui_track_lane` (default 0) — not on
`parent.lane + 1`.  (The clip appears in the rows provided its lane is
non-negative; rows only cover lanes `0 .. maxTrack`.) -/
theorem claim_C5_top_child (nodes : List StoryNode) (o c : StoryNode)
    (hfind : nodes.find? (fun n => n.anchor_type = some AnchorType.ORIGIN) = some o)
    (hc : c ∈ childrenOf nodes o.id)
    (htop : c.anchor_type = some AnchorType.TOP)
    (hdrift : c.drift.getD 0 = 0)
    (hlane : 0 ≤ c.ui_track_lane.getD 0) :
    ∃ clip ∈ clipsOf (deriveTimeline nodes),
      clip.nodeId = c.id ∧ clip.start = 0 ∧ clip.track = c.ui_track_lane.getD 0 := by
  have hcmem : c ∈ nodes := by
    unfold childrenOf at hc
    split at hc
    · simp at hc
    · exact (List.mem_filter.mp hc).1
  have hne : nodes ≠ [] := List.ne_nil_of_mem hcmem
  have hemp : nodes.isEmpty = false := List.isEmpty_eq_false.mpr hne
  obtain ⟨m, hm⟩ : ∃ m, nodes.length = m + 1 := by
    cases nodes with
    | nil => exact absurd rfl hne
    | cons a t => exact ⟨t.length, rfl⟩
  have hdt : deriveTimeline nodes
      = ⟨buildTimelineRows (tlProcessNodeF (childrenOf nodes) (nodes.length + 1) o 0
            ⟨[], 0⟩).1.clips,
         (tlProcessNodeF (childrenOf nodes) (nodes.length + 1) o 0 ⟨[], 0⟩).1.totalDuration⟩ := by
    unfold deriveTimeline
    rw [hemp, hfind]
    rfl
  have hfc : c ∈ (childrenOf nodes o.id).filter
      (fun x => x.anchor_type = some AnchorType.TOP) :=
    List.mem_filter.mpr ⟨hc, by simp [htop]⟩
  have hfuel : nodes.length + 1 = m + 2 := by omega
  have hclip : tlClip c (0 + (c.drift.getD 0) / 1000)
      ∈ (tlProcessNodeF (childrenOf nodes) (m + 2) o 0 ⟨[], 0⟩).1.clips :=
    tlProcessNodeF_top_clip (childrenOf nodes) m o c 0 ⟨[], 0⟩ hfc
  rw [← hfuel] at hclip
  have hstart : (0 : ℚ) + (c.drift.getD 0) / 1000 = 0 := by
    rw [hdrift]
    norm_num
  rw [hstart] at hclip
  obtain ⟨r, hr, hcr⟩ := clip_mem_buildTimelineRows _ (tlClip c 0) hclip hlane
  refine ⟨tlClip c 0, ?_, rfl, rfl, rfl⟩
  rw [hdt]
  unfold clipsOf
  exact List.mem_flatten.mpr ⟨r.clips, List.mem_map_of_mem _ hr, hcr⟩

theorem claim_C5_witness :
    ∃ clip ∈ clipsOf (deriveTimeline exC5nodes),
      clip.nodeId = nT.id ∧ clip.start = 0 ∧ clip.track = nT.ui_track_lane.getD 0 :=
  claim_C5_top_child exC5nodes nO nT (by decide) (by decide) rfl rfl (by decide)

end LocalGraph
